import Mathlib

/-!
# go-todo: a shallow embedding of `main.go` and its HTTP handlers

The four handlers of `main.go` (`createTodo`, `updateTodo`, `fetchTodos`,
`deleteTodo`) are embedded as pure functions over an explicit server state: the
`todo` collection of the document store and the process-wide counter of
`bson.NewObjectId`.  The library calls the handlers make (`strings.TrimSpace`,
`bson.IsObjectIdHex`, `bson.ObjectIdHex`, `ObjectId.Hex`, `bson.NewObjectId`,
`encoding/hex`, and mgo's `Insert`, `Update`, `RemoveId`, `Find(..).All`) are
embedded from the documented behaviour of those libraries.

A Go `string` is embedded as a Lean `String`; `len` is the UTF-8 byte size.
A request body is given by what `json.NewDecoder(r.Body).Decode(&t)` returns.
A failure of the store that does not come from the data (the store being
unreachable) is an input of each handler, `fault`.
-/

namespace GoTodo

/-! ## Bytes, `encoding/hex` and `bson.ObjectId` -/

/-- A Go `byte`. -/
abbrev Byte := Fin 256

/-- The Go type `bson.ObjectId`: a string of raw bytes (12 of them when valid). -/
abbrev ObjectId := List Byte

/-- The constant `hextable` of `encoding/hex`. -/
def hextable : String := "0123456789abcdef"

/-- The character `hextable[n]`. -/
def hexDigit (n : Nat) : Char := hextable.data.getD n '0'

/-- The function `fromHexChar` of `encoding/hex`: the value of one hexadecimal
digit, of either case. -/
def fromHexChar (c : Char) : Option (Fin 16) :=
  if '0'.toNat ≤ c.toNat ∧ c.toNat ≤ '9'.toNat then some (Fin.ofNat (c.toNat - '0'.toNat))
  else if 'a'.toNat ≤ c.toNat ∧ c.toNat ≤ 'f'.toNat then
    some (Fin.ofNat (c.toNat - 'a'.toNat + 10))
  else if 'A'.toNat ≤ c.toNat ∧ c.toNat ≤ 'F'.toNat then
    some (Fin.ofNat (c.toNat - 'A'.toNat + 10))
  else none

/-- The byte `(a << 4) | b` made of two hexadecimal digits. -/
def mkByte (a b : Fin 16) : Byte := ⟨a.val * 16 + b.val, by omega⟩

/-- The function `hex.Decode` on the characters of the source: two digits give
one byte; a character that is no digit, or an odd length, is an error. -/
def hexDecode : List Char → Option (List Byte)
  | [] => some []
  | [_] => none
  | p :: q :: rest =>
    match fromHexChar p, fromHexChar q, hexDecode rest with
    | some a, some b, some ds => some (mkByte a b :: ds)
    | _, _, _ => none

/-- The function `hex.DecodeString`. -/
def DecodeString (s : String) : Option (List Byte) := hexDecode s.data

/-- The characters `hex.Encode` writes: for each byte `v`, `hextable[v>>4]`
then `hextable[v&0x0f]`. -/
def hexEncode : List Byte → List Char
  | [] => []
  | v :: rest => hexDigit (v.val / 16) :: hexDigit (v.val % 16) :: hexEncode rest

/-- The function `hex.EncodeToString`. -/
def EncodeToString (src : List Byte) : String := String.mk (hexEncode src)

/-- The method `ObjectId.Hex`: the hexadecimal text of the id. -/
def ObjectId.Hex (id : ObjectId) : String := EncodeToString id

/-- The Go builtin `len` on a string: its number of bytes. -/
def len (s : String) : Nat := s.utf8ByteSize

/-- The function `bson.IsObjectIdHex`: 24 bytes long and `hex.DecodeString`
succeeds. -/
def IsObjectIdHex (s : String) : Bool :=
  if len s ≠ 24 then false else (DecodeString s).isSome

/-- The function `bson.ObjectIdHex`: the decoded id; it panics (here `none`)
when the text does not decode or does not decode to 12 bytes. -/
def ObjectIdHex (s : String) : Option ObjectId :=
  match DecodeString s with
  | some d => if d.length ≠ 12 then none else some d
  | none => none

/-! ## `strings.TrimSpace` -/

/-- The function `unicode.IsSpace`: the Latin-1 spaces, then the other code
points of the `White_Space` table. -/
def isSpace (c : Char) : Bool :=
  let r := c.toNat
  if r ≤ 0xFF then
    r = 0x09 ∨ r = 0x0A ∨ r = 0x0B ∨ r = 0x0C ∨ r = 0x0D ∨ r = 0x20 ∨ r = 0x85 ∨ r = 0xA0
  else
    r = 0x1680 ∨ (0x2000 ≤ r ∧ r ≤ 0x200A) ∨ r = 0x2028 ∨ r = 0x2029 ∨ r = 0x202F
      ∨ r = 0x205F ∨ r = 0x3000

/-- Drop the leading and the trailing white space of a list of characters. -/
def trimChars (l : List Char) : List Char :=
  ((l.dropWhile isSpace).reverse.dropWhile isSpace).reverse

/-- The function `strings.TrimSpace`. -/
def TrimSpace (s : String) : String := String.mk (trimChars s.data)

/-! ## Data model -/

/-- A Go `time.Time`, as an instant: nanoseconds since the Unix epoch. -/
abbrev Time := Int

/-- The zero value `time.Time{}`: January 1 of year 1, 00:00:00 UTC. -/
def zeroTime : Time := -62135596800000000000

/-- The struct `todoModel`: the data of a todo in MongoDB. -/
structure todoModel where
  ID : ObjectId
  Title : String
  Completed : Bool
  CreatedAt : Time
  deriving DecidableEq, Repr

/-- The struct `todo`: the data of a todo in a request or a response. -/
structure todo where
  ID : String
  Title : String
  Completed : Bool
  CreatedAt : Time
  deriving DecidableEq, Repr

/-- A document of the collection `todo`, over the keys the program writes:
`_id`, `title`, `completed` and, when the document has it, `createdAt` (a BSON
datetime: milliseconds since the Unix epoch). -/
structure Document where
  _id : ObjectId
  title : String
  completed : Bool
  createdAt : Option Int
  deriving DecidableEq, Repr

/-- The BSON document `Insert(&tm)` sends: the fields of `todoModel` under their
`bson` tags; a `time.Time` is written in milliseconds. -/
def marshal (tm : todoModel) : Document :=
  { _id := tm.ID, title := tm.Title, completed := tm.Completed,
    createdAt := some (tm.CreatedAt / 1000000) }

/-- The `todoModel` that `All(&todos)` fills from a document: a key the
document does not have leaves the zero value of its field. -/
def unmarshal (d : Document) : todoModel :=
  { ID := d._id, Title := d.title, Completed := d.completed,
    CreatedAt := match d.createdAt with
      | some ms => ms * 1000000
      | none => zeroTime }

/-! ## The store: mgo's operations on the collection -/

/-- The errors the driver returns. -/
inductive StoreError where
  /-- The value `mgo.ErrNotFound`. -/
  | ErrNotFound
  /-- The error of an insert whose `_id` is already in the collection. -/
  | duplicateKey
  /-- The store could not be reached or did not answer. -/
  | unreachable (detail : String)
  deriving DecidableEq, Repr

/-- The method `Collection.Insert` with one document: `_id` is unique in a
collection, so a document whose `_id` is present is rejected. -/
def Insert (c : List Document) (doc : Document) (fault : Option String) :
    Except StoreError (List Document) :=
  match fault with
  | some detail => .error (.unreachable detail)
  | none => if doc._id ∈ c.map Document._id then .error .duplicateKey else .ok (c ++ [doc])

/-- Replace the first document whose `_id` is `oid` by the document
`{_id: oid, title: title, completed: completed}`. -/
def replaceOne (oid : ObjectId) (title : String) (completed : Bool) :
    List Document → Option (List Document)
  | [] => none
  | d :: ds =>
    if d._id = oid then
      some ({ _id := oid, title := title, completed := completed, createdAt := none } :: ds)
    else
      match replaceOne oid title completed ds with
      | some ds1 => some (d :: ds1)
      | none => none

/-- The method `Collection.Update` with the selector `{"_id": oid}` and the
update document `{"title": title, "completed": completed}`.  The update
document has no `$` operator, so it replaces the matched document, which keeps
its `_id` only.  In safe mode, the mode of a session made by `mgo.Dial`,
`ErrNotFound` is returned when no document matches. -/
def Update (c : List Document) (oid : ObjectId) (title : String) (completed : Bool)
    (fault : Option String) : Except StoreError (List Document) :=
  match fault with
  | some detail => .error (.unreachable detail)
  | none =>
    match replaceOne oid title completed c with
    | some c1 => .ok c1
    | none => .error .ErrNotFound

/-- Remove the first document whose `_id` is `oid`. -/
def removeOne (oid : ObjectId) : List Document → Option (List Document)
  | [] => none
  | d :: ds =>
    if d._id = oid then some ds
    else
      match removeOne oid ds with
      | some ds1 => some (d :: ds1)
      | none => none

/-- The method `Collection.RemoveId`: `ErrNotFound` when no document has the
id. -/
def RemoveId (c : List Document) (oid : ObjectId) (fault : Option String) :
    Except StoreError (List Document) :=
  match fault with
  | some detail => .error (.unreachable detail)
  | none =>
    match removeOne oid c with
    | some c1 => .ok c1
    | none => .error .ErrNotFound

/-- The call `Find(bson.M{}).All(&todos)`: every document of the collection,
in the order of insertion. -/
def FindAll (c : List Document) (fault : Option String) :
    Except StoreError (List todoModel) :=
  match fault with
  | some detail => .error (.unreachable detail)
  | none => .ok (c.map unmarshal)

/-! ## The server state and `bson.NewObjectId` -/

/-- The state the handlers work on: the collection `db.C(collectionName)` and
the package variables of `bson` that `NewObjectId` reads. -/
structure Server where
  /-- The documents of the collection `todo`. -/
  todos : List Document
  /-- The variable `objectIdCounter`, a `uint32`. -/
  objectIdCounter : Nat
  /-- The variable `machineId`: three bytes. -/
  machineId : Byte × Byte × Byte
  /-- The variable `processId`. -/
  processId : Nat
  deriving DecidableEq, Repr

/-- The conversion `byte(x)`. -/
def toByte (x : Nat) : Byte := ⟨x % 256, Nat.mod_lt _ (by decide)⟩

/-- The function `bson.NewObjectId`, at the Unix time `unix` in seconds: four
bytes of time, three of machine id, two of process id and three of the
incremented counter.  Returns the id and the new counter. -/
def NewObjectId (s : Server) (unix : Nat) : ObjectId × Nat :=
  let u := unix % 2 ^ 32
  let i := (s.objectIdCounter + 1) % 2 ^ 32
  ([toByte (u / 2 ^ 24), toByte (u / 2 ^ 16), toByte (u / 2 ^ 8), toByte u,
    s.machineId.1, s.machineId.2.1, s.machineId.2.2,
    toByte (s.processId / 2 ^ 8), toByte s.processId,
    toByte (i / 2 ^ 16), toByte (i / 2 ^ 8), toByte i], i)

/-! ## Responses -/

/-- The error `Decode` returns for a body it cannot read, as the renderer sees
it: its text and the names of the exported fields `json.Marshal` writes for
it. -/
structure DecodeError where
  text : String
  exported : List String
  deriving DecidableEq, Repr

/-- The error `io.EOF`, which `Decode` returns for an empty body: a value with
no exported field. -/
def EOF : DecodeError := { text := "EOF", exported := [] }

/-- A value of a `renderer.M`. -/
inductive Value where
  | str (s : String)
  | err (e : StoreError)
  | list (l : List todo)
  deriving DecidableEq, Repr

/-- What a handler passes to `rnd.JSON`: a `renderer.M` or an error value. -/
inductive Payload where
  | M (fields : List (String × Value))
  | err (e : DecodeError)
  deriving DecidableEq, Repr

/-- The keys of the JSON object the payload is rendered to. -/
def Payload.keys : Payload → List String
  | .M fields => fields.map Prod.fst
  | .err e => e.exported

/-- The value of a key of a `renderer.M`. -/
def Payload.field (p : Payload) (key : String) : Option Value :=
  match p with
  | .M fields => fields.lookup key
  | .err _ => none

/-- The call `rnd.JSON(w, status, body)`. -/
structure Response where
  status : Nat
  body : Payload
  deriving DecidableEq, Repr

/-- How a handler ends: with a response, or in a panic. -/
inductive Outcome where
  | response (r : Response)
  | panic
  deriving DecidableEq, Repr

/-- The constant `http.StatusProcessing`. -/
def StatusProcessing : Nat := 102

/-- The constant `http.StatusOK`. -/
def StatusOK : Nat := 200

/-- The constant `http.StatusCreated`. -/
def StatusCreated : Nat := 201

/-- The constant `http.StatusBadRequest`. -/
def StatusBadRequest : Nat := 400

/-! ## The handlers -/

/-- The handler `createTodo`.  `body` is what `Decode(&t)` gives, `unix` the
clock `NewObjectId` reads (seconds), `now` the value of `time.Now()`. -/
def createTodo (s : Server) (body : Except DecodeError todo) (unix : Nat) (now : Time)
    (fault : Option String) : Server × Outcome :=
  match body with
  | .error err => (s, .response ⟨StatusProcessing, .err err⟩)
  | .ok t =>
    if t.Title = "" then
      (s, .response ⟨StatusBadRequest, .M [("message", .str "The title field is required")]⟩)
    else
      let (id, counter) := NewObjectId s unix
      let s1 := { s with objectIdCounter := counter }
      let tm : todoModel := { ID := id, Title := t.Title, Completed := false, CreatedAt := now }
      match Insert s1.todos (marshal tm) fault with
      | .error err =>
        (s1, .response ⟨StatusProcessing,
          .M [("message", .str "Failed to save todo"), ("error", .err err)]⟩)
      | .ok c =>
        ({ s1 with todos := c }, .response ⟨StatusCreated,
          .M [("message", .str "Todo created successfully"), ("todo_id", .str tm.ID.Hex)]⟩)

/-- The handler `updateTodo`.  `urlParam` is `chi.URLParam(r, "id")`. -/
def updateTodo (s : Server) (urlParam : String) (body : Except DecodeError todo)
    (fault : Option String) : Server × Outcome :=
  let id := TrimSpace urlParam
  if !IsObjectIdHex id then
    (s, .response ⟨StatusBadRequest, .M [("message", .str "The id is invalid")]⟩)
  else
    match body with
    | .error err => (s, .response ⟨StatusProcessing, .err err⟩)
    | .ok t =>
      if t.Title = "" then
        (s, .response ⟨StatusBadRequest, .M [("message", .str "The title field is required")]⟩)
      else
        match ObjectIdHex id with
        | none => (s, .panic)
        | some oid =>
          match Update s.todos oid t.Title t.Completed fault with
          | .error err =>
            (s, .response ⟨StatusProcessing,
              .M [("message", .str "Failed to update todo"), ("error", .err err)]⟩)
          | .ok c =>
            ({ s with todos := c }, .response ⟨StatusOK,
              .M [("message", .str "Todo updated successfully")]⟩)

/-- The loop of `fetchTodos` that builds `todoList`. -/
def todoList (todos : List todoModel) : List todo :=
  todos.map fun t =>
    { ID := t.ID.Hex, Title := t.Title, Completed := t.Completed, CreatedAt := t.CreatedAt }

/-- The handler `fetchTodos`. -/
def fetchTodos (s : Server) (fault : Option String) : Server × Outcome :=
  match FindAll s.todos fault with
  | .error err =>
    (s, .response ⟨StatusProcessing,
      .M [("message", .str "Failed to fetch todo"), ("error", .err err)]⟩)
  | .ok todos => (s, .response ⟨StatusOK, .M [("data", .list (todoList todos))]⟩)

/-- The handler `deleteTodo`. -/
def deleteTodo (s : Server) (urlParam : String) (fault : Option String) : Server × Outcome :=
  let id := TrimSpace urlParam
  if !IsObjectIdHex id then
    (s, .response ⟨StatusBadRequest, .M [("message", .str "The id is invalid")]⟩)
  else
    match ObjectIdHex id with
    | none => (s, .panic)
    | some oid =>
      match RemoveId s.todos oid fault with
      | .error err =>
        (s, .response ⟨StatusProcessing,
          .M [("message", .str "Failed to delete todo"), ("error", .err err)]⟩)
      | .ok c =>
        ({ s with todos := c }, .response ⟨StatusOK,
          .M [("message", .str "Todo deleted successfully")]⟩)

/-! ## Sequences of requests and the invariant of the store -/

/-- One request to `createTodo`: its decoded body and what the handler reads
from its environment. -/
structure CreateRequest where
  body : Except DecodeError todo
  unix : Nat
  now : Time
  fault : Option String

/-- The title the body of a request decodes to, if it decodes. -/
def CreateRequest.title (r : CreateRequest) : Option String :=
  match r.body with
  | .ok t => some t.Title
  | .error _ => none

/-- Serve a sequence of requests to `createTodo`, one after the other: the
final state and the outcomes in order. -/
def createAll (s : Server) : List CreateRequest → Server × List Outcome
  | [] => (s, [])
  | r :: rs =>
    let step := createTodo s r.body r.unix r.now r.fault
    let rest := createAll step.1 rs
    (rest.1, step.2 :: rest.2)

/-- The state of a server that has just started on an empty collection. -/
def emptyServer (counter : Nat) (machineId : Byte × Byte × Byte) (processId : Nat) : Server :=
  { todos := [], objectIdCounter := counter, machineId := machineId, processId := processId }

/-- The invariant of the collection: `_id` is unique (the store's unique index
on `_id`) and every `_id` is a valid `bson.ObjectId` of 12 bytes. -/
def StoreInv (s : Server) : Prop :=
  (s.todos.map Document._id).Nodup ∧ ∀ d ∈ s.todos, d._id.length = 12

/-- The response `rnd.JSON(w, status, renderer.M{"message": text})`. -/
def messageResponse (status : Nat) (text : String) : Outcome :=
  .response ⟨status, .M [("message", .str text)]⟩

/-- The response `rnd.JSON(w, http.StatusProcessing, renderer.M{"message": text,
"error": err})` of the branches that handle an error of the store. -/
def failureResponse (text : String) (err : StoreError) : Outcome :=
  .response ⟨StatusProcessing, .M [("message", .str text), ("error", .err err)]⟩

/-- The status of the response a handler ended with, if it ended with one. -/
def Outcome.status : Outcome → Option Nat
  | .response r => some r.status
  | .panic => none

/-- The response of a successful `createTodo` that made the id `todo_id`. -/
def createdResponse (todo_id : String) : Outcome :=
  .response ⟨StatusCreated,
    .M [("message", .str "Todo created successfully"), ("todo_id", .str todo_id)]⟩

/-- A request to one of the routes of `todoHandlers`, with what its handler
reads. -/
inductive Request where
  /-- The route `r.Get("/", fetchTodos)`. -/
  | fetch
  /-- The route `r.Post("/", createTodo)`. -/
  | create (body : Except DecodeError todo) (unix : Nat) (now : Time)
  /-- The route `r.Put("/{id}", updateTodo)`. -/
  | update (urlParam : String) (body : Except DecodeError todo)
  /-- The route `r.Delete("/{id}", deleteTodo)`. -/
  | delete (urlParam : String)

/-- The router `todoHandlers`: each request goes to its handler. -/
def todoHandlers (s : Server) (req : Request) (fault : Option String) : Server × Outcome :=
  match req with
  | .fetch => fetchTodos s fault
  | .create body unix now => createTodo s body unix now fault
  | .update urlParam body => updateTodo s urlParam body fault
  | .delete urlParam => deleteTodo s urlParam fault

/-- The status with which the handler of a request answers on its last line,
when nothing failed. -/
def Request.successStatus : Request → Nat
  | .create _ _ _ => StatusCreated
  | _ => StatusOK

/-- The decoded body of a request, for the handlers that read one. -/
def Request.body : Request → Option (Except DecodeError todo)
  | .create body _ _ => some body
  | .update _ body => some body
  | _ => none

/-- An id of twelve zero bytes; its text is `000000000000000000000000`. -/
def zeroId : ObjectId := List.replicate 12 0

/-- A server whose collection holds one todo, created at the Unix time
1700000000 s, with the id `zeroId`. -/
def sampleServer : Server :=
  { todos := [{ _id := zeroId, title := "buy milk", completed := false,
                createdAt := some 1700000000000 }],
    objectIdCounter := 7, machineId := (1, 2, 3), processId := 4242 }

/-- The id `bson.NewObjectId` makes at the Unix time 1700000000 s on the
machine (1, 2, 3), in the process 4242, when the counter is 7; its text is
`6553f1000102031092000008`. -/
def milkId : ObjectId := [101, 83, 241, 0, 1, 2, 3, 16, 146, 0, 0, 8]

/-- A server started with the counter 7 that has served one `createTodo`: its
collection holds one document with the id `milkId`. -/
def milkServer (createdAt : Option Int) (title : String) (completed : Bool) : Server :=
  { todos := [{ _id := milkId, title := title, completed := completed, createdAt := createdAt }],
    objectIdCounter := 8, machineId := (1, 2, 3), processId := 4242 }

instance (s : Server) : Decidable (StoreInv s) := by
  unfold StoreInv
  infer_instance

/-! ## `encoding/hex`: decoding inverts encoding -/

theorem fromHexChar_hexDigit (d : Fin 16) : fromHexChar (hexDigit d.val) = some d := by
  revert d; decide

theorem mkByte_split (v : Byte) :
    mkByte ⟨v.val / 16, by omega⟩ ⟨v.val % 16, by omega⟩ = v := by
  apply Fin.ext
  simp only [mkByte]
  omega

theorem hexDecode_hexEncode (bs : List Byte) : hexDecode (hexEncode bs) = some bs := by
  induction bs with
  | nil => rfl
  | cons v rest ih =>
    have h1 := fromHexChar_hexDigit ⟨v.val / 16, by omega⟩
    have h2 := fromHexChar_hexDigit ⟨v.val % 16, by omega⟩
    simp only at h1 h2
    simp only [hexEncode, hexDecode, h1, h2, ih, mkByte_split]

theorem fromHexChar_range (c : Char) (a : Fin 16) (h : fromHexChar c = some a) :
    48 ≤ c.toNat ∧ c.toNat ≤ 102 := by
  unfold fromHexChar at h
  simp only [Char.reduceToNat] at h
  split_ifs at h <;> omega

theorem isSpace_of_fromHexChar (c : Char) (a : Fin 16) (h : fromHexChar c = some a) :
    isSpace c = false := by
  have hr := fromHexChar_range c a h
  unfold isSpace
  have hc : c.toNat ≤ 255 := by omega
  simp only [hc, if_true, decide_eq_false_iff_not]
  omega

theorem utf8Size_of_fromHexChar (c : Char) (a : Fin 16) (h : fromHexChar c = some a) :
    c.utf8Size = 1 := by
  have hr := fromHexChar_range c a h
  unfold Char.utf8Size
  have : c.val ≤ 127 := by
    rw [UInt32.le_def]
    show c.val.toNat ≤ 127
    have : c.toNat = c.val.toNat := rfl
    omega
  simp [this]

/-- What a successful `hex.Decode` says of its source: every character is a
digit, and there are two of them for each byte. -/
theorem hexDecode_some : ∀ (l : List Char) (d : List Byte), hexDecode l = some d →
    l.length = 2 * d.length ∧ ∀ c ∈ l, ∃ a, fromHexChar c = some a
  | [], d, h => by
    simp only [hexDecode, Option.some.injEq] at h
    subst h
    simp
  | [_], d, h => by simp [hexDecode] at h
  | p :: q :: rest, d, h => by
    simp only [hexDecode] at h
    split at h
    · rename_i a b ds ha hb hds
      simp only [Option.some.injEq] at h
      subst h
      obtain ⟨h1, h2⟩ := hexDecode_some rest ds hds
      refine ⟨by simp only [List.length_cons, h1]; omega, ?_⟩
      intro c hc
      simp only [List.mem_cons] at hc
      rcases hc with rfl | rfl | hc
      · exact ⟨a, ha⟩
      · exact ⟨b, hb⟩
      · exact h2 c hc
    · simp at h

theorem utf8ByteSize_go_of_hex (l : List Char) (h : ∀ c ∈ l, ∃ a, fromHexChar c = some a) :
    String.utf8ByteSize.go l = l.length := by
  induction l with
  | nil => rfl
  | cons c cs ih =>
    obtain ⟨a, ha⟩ := h c (List.mem_cons_self _ _)
    simp only [String.utf8ByteSize.go, List.length_cons, utf8Size_of_fromHexChar c a ha]
    rw [ih (fun c hc => h c (List.mem_cons_of_mem _ hc))]

theorem trimChars_of_no_space (l : List Char) (h : ∀ c ∈ l, isSpace c = false) :
    trimChars l = l := by
  unfold trimChars
  have h1 : l.dropWhile isSpace = l := by
    cases l with
    | nil => rfl
    | cons c cs => simp [List.dropWhile, h c (List.mem_cons_self _ _)]
  rw [h1]
  have h2 : l.reverse.dropWhile isSpace = l.reverse := by
    cases hr : l.reverse with
    | nil => rfl
    | cons c cs =>
      have : c ∈ l := by
        rw [← List.mem_reverse, hr]; exact List.mem_cons_self _ _
      simp [List.dropWhile, h c this]
  rw [h2, List.reverse_reverse]

/-! ## Ids as text -/

theorem hexEncode_length (bs : List Byte) : (hexEncode bs).length = 2 * bs.length := by
  induction bs with
  | nil => rfl
  | cons v rest ih => simp only [hexEncode, List.length_cons, ih]; omega

theorem hexEncode_injective (a b : List Byte) (h : hexEncode a = hexEncode b) : a = b := by
  have := hexDecode_hexEncode a
  rw [h, hexDecode_hexEncode] at this
  exact (Option.some.inj this).symm

theorem Hex_injective (a b : ObjectId) (h : a.Hex = b.Hex) : a = b := by
  apply hexEncode_injective
  exact congrArg String.data h

theorem hexEncode_digits (bs : List Byte) : ∀ c ∈ hexEncode bs, ∃ a, fromHexChar c = some a := by
  exact (hexDecode_some _ _ (hexDecode_hexEncode bs)).2

theorem len_of_DecodeString (s : String) (d : List Byte) (h : DecodeString s = some d) :
    len s = 2 * d.length := by
  obtain ⟨h1, h2⟩ := hexDecode_some _ _ h
  unfold len String.utf8ByteSize
  rw [← h1]
  exact utf8ByteSize_go_of_hex _ h2

/-- The panic of `bson.ObjectIdHex` is not reached after `bson.IsObjectIdHex`. -/
theorem ObjectIdHex_of_IsObjectIdHex (s : String) (h : IsObjectIdHex s = true) :
    ∃ oid, ObjectIdHex s = some oid ∧ oid.length = 12 := by
  unfold IsObjectIdHex at h
  split_ifs at h with hl
  rw [Option.isSome_iff_exists] at h
  obtain ⟨d, hd⟩ := h
  have := len_of_DecodeString s d hd
  have h12 : d.length = 12 := by
    have hl2 : len s = 24 := by simpa using hl
    omega
  exact ⟨d, by simp [ObjectIdHex, hd, h12], h12⟩

theorem TrimSpace_of_DecodeString (s : String) (d : List Byte) (h : DecodeString s = some d) :
    TrimSpace s = s := by
  obtain ⟨_, h2⟩ := hexDecode_some _ _ h
  unfold TrimSpace
  rw [trimChars_of_no_space]
  intro c hc
  obtain ⟨a, ha⟩ := h2 c hc
  exact isSpace_of_fromHexChar c a ha

/-- A text in the canonical format has no white space to trim. -/
theorem TrimSpace_of_IsObjectIdHex (s : String) (h : IsObjectIdHex s = true) :
    TrimSpace s = s := by
  unfold IsObjectIdHex at h
  split_ifs at h
  rw [Option.isSome_iff_exists] at h
  obtain ⟨d, hd⟩ := h
  exact TrimSpace_of_DecodeString s d hd

theorem DecodeString_Hex (id : ObjectId) : DecodeString id.Hex = some id :=
  hexDecode_hexEncode id

theorem TrimSpace_Hex (id : ObjectId) : TrimSpace id.Hex = id.Hex :=
  TrimSpace_of_DecodeString _ _ (DecodeString_Hex id)

theorem IsObjectIdHex_Hex (id : ObjectId) (h : id.length = 12) : IsObjectIdHex id.Hex = true := by
  have hl := len_of_DecodeString _ _ (DecodeString_Hex id)
  unfold IsObjectIdHex
  rw [DecodeString_Hex]
  simp [hl, h]

theorem ObjectIdHex_Hex (id : ObjectId) (h : id.length = 12) : ObjectIdHex id.Hex = some id := by
  unfold ObjectIdHex
  rw [DecodeString_Hex]
  simp [h]

theorem NewObjectId_length (s : Server) (unix : Nat) : (NewObjectId s unix).1.length = 12 := rfl

/-! ## The store operations -/

theorem replaceOne_none (oid : ObjectId) (t : String) (c : Bool) :
    ∀ l : List Document, oid ∉ l.map Document._id → replaceOne oid t c l = none
  | [], _ => rfl
  | d :: ds, h => by
    simp only [List.map_cons, List.mem_cons, not_or] at h
    have hne : ¬ d._id = oid := fun e => h.1 e.symm
    simp only [replaceOne, hne, if_false, replaceOne_none oid t c ds h.2]

theorem replaceOne_ids (oid : ObjectId) (t : String) (c : Bool) :
    ∀ l l1 : List Document, replaceOne oid t c l = some l1 →
      l1.map Document._id = l.map Document._id
  | [], _, h => by simp [replaceOne] at h
  | d :: ds, l1, h => by
    simp only [replaceOne] at h
    split_ifs at h with he
    · simp only [Option.some.injEq] at h
      subst h
      simp [he]
    · split at h
      · rename_i ds1 hds
        simp only [Option.some.injEq] at h
        subst h
        simp [replaceOne_ids oid t c ds ds1 hds]
      · simp at h

/-- With unique ids, replacing the first match replaces the one document that
has the id and leaves the others as they are. -/
theorem replaceOne_eq_map (oid : ObjectId) (t : String) (c : Bool) :
    ∀ l : List Document, oid ∈ l.map Document._id → (l.map Document._id).Nodup →
      replaceOne oid t c l = some (l.map fun d =>
        if d._id = oid then { _id := oid, title := t, completed := c, createdAt := none } else d)
  | [], h, _ => by simp at h
  | d :: ds, h, hn => by
    simp only [List.map_cons, List.nodup_cons] at hn
    by_cases he : d._id = oid
    · have htail : ∀ x ∈ ds, ¬ x._id = oid := by
        intro x hx e
        apply hn.1
        rw [he, ← e]
        exact List.mem_map_of_mem _ hx
      have hmap : (ds.map fun d : Document =>
          if d._id = oid then
            ({ _id := oid, title := t, completed := c, createdAt := none } : Document)
          else d) = ds := by
        conv_rhs => rw [← List.map_id ds]
        apply List.map_congr_left
        intro x hx
        simp [htail x hx]
      simp only [replaceOne, he, if_true, List.map_cons, hmap]
    · have hmem : oid ∈ ds.map Document._id := by
        simp only [List.map_cons, List.mem_cons] at h
        rcases h with h | h
        · exact absurd h.symm he
        · exact h
      simp only [replaceOne, he, if_false, List.map_cons,
        replaceOne_eq_map oid t c ds hmem hn.2]

theorem removeOne_none (oid : ObjectId) :
    ∀ l : List Document, oid ∉ l.map Document._id → removeOne oid l = none
  | [], _ => rfl
  | d :: ds, h => by
    simp only [List.map_cons, List.mem_cons, not_or] at h
    have hne : ¬ d._id = oid := fun e => h.1 e.symm
    simp only [removeOne, hne, if_false, removeOne_none oid ds h.2]

theorem removeOne_sublist (oid : ObjectId) :
    ∀ l l1 : List Document, removeOne oid l = some l1 →
      l1.Sublist l ∧ l1.length + 1 = l.length
  | [], _, h => by simp [removeOne] at h
  | d :: ds, l1, h => by
    simp only [removeOne] at h
    split_ifs at h with he
    · simp only [Option.some.injEq] at h
      subst h
      exact ⟨List.sublist_cons_self _ _, rfl⟩
    · split at h
      · rename_i ds1 hds
        simp only [Option.some.injEq] at h
        subst h
        obtain ⟨h1, h2⟩ := removeOne_sublist oid ds ds1 hds
        exact ⟨h1.cons₂ d, by simp only [List.length_cons, h2]⟩
      · simp at h

/-- With unique ids, removing the first match removes every document that has
the id and keeps the others in their order. -/
theorem removeOne_eq_filter (oid : ObjectId) :
    ∀ l : List Document, oid ∈ l.map Document._id → (l.map Document._id).Nodup →
      removeOne oid l = some (l.filter fun d => decide (d._id ≠ oid))
  | [], h, _ => by simp at h
  | d :: ds, h, hn => by
    simp only [List.map_cons, List.nodup_cons] at hn
    by_cases he : d._id = oid
    · have htail : ∀ x ∈ ds, ¬ x._id = oid := by
        intro x hx e
        apply hn.1
        rw [he, ← e]
        exact List.mem_map_of_mem _ hx
      have hfil : (ds.filter fun d => decide (d._id ≠ oid)) = ds := by
        rw [List.filter_eq_self]
        intro x hx
        simpa using htail x hx
      simp only [removeOne, he, if_true, List.filter_cons, ne_eq, not_true_eq_false,
        decide_False, Bool.false_eq_true, if_false]
      simpa using hfil.symm
    · have hmem : oid ∈ ds.map Document._id := by
        simp only [List.map_cons, List.mem_cons] at h
        rcases h with h | h
        · exact absurd h.symm he
        · exact h
      simp only [removeOne, he, if_false, removeOne_eq_filter oid ds hmem hn.2,
        List.filter_cons, ne_eq, not_false_eq_true, decide_True, if_true]

/-! ## The handlers on a valid id -/

theorem updateTodo_of_valid (s : Server) (id : String) (body : Except DecodeError todo)
    (fault : Option String) (oid : ObjectId) (hid : IsObjectIdHex (TrimSpace id) = true)
    (hoid : ObjectIdHex (TrimSpace id) = some oid) :
    updateTodo s id body fault =
      match body with
      | .error err => (s, .response ⟨StatusProcessing, .err err⟩)
      | .ok t =>
        if t.Title = "" then (s, messageResponse StatusBadRequest "The title field is required")
        else
          match Update s.todos oid t.Title t.Completed fault with
          | .error err =>
            (s, .response ⟨StatusProcessing,
              .M [("message", .str "Failed to update todo"), ("error", .err err)]⟩)
          | .ok c => ({ s with todos := c }, messageResponse StatusOK "Todo updated successfully") := by
  simp only [updateTodo, hid, hoid, messageResponse, Bool.not_true, Bool.false_eq_true, if_false]

theorem deleteTodo_of_valid (s : Server) (id : String) (fault : Option String) (oid : ObjectId)
    (hid : IsObjectIdHex (TrimSpace id) = true) (hoid : ObjectIdHex (TrimSpace id) = some oid) :
    deleteTodo s id fault =
      match RemoveId s.todos oid fault with
      | .error err =>
        (s, .response ⟨StatusProcessing,
          .M [("message", .str "Failed to delete todo"), ("error", .err err)]⟩)
      | .ok c => ({ s with todos := c }, messageResponse StatusOK "Todo deleted successfully") := by
  simp only [deleteTodo, hid, hoid, messageResponse, Bool.not_true, Bool.false_eq_true, if_false]

/-! ## The invariant of the store is kept by every handler -/

theorem StoreInv_emptyServer (counter : Nat) (machineId : Byte × Byte × Byte) (processId : Nat) :
    StoreInv (emptyServer counter machineId processId) := by
  simp [StoreInv, emptyServer]

theorem StoreInv_createTodo (s : Server) (body : Except DecodeError todo) (unix : Nat)
    (now : Time) (fault : Option String) (hs : StoreInv s) :
    StoreInv (createTodo s body unix now fault).1 := by
  unfold createTodo
  split
  · exact hs
  · split_ifs
    · exact hs
    · simp only
      split
      · exact hs
      · rename_i c hc
        unfold Insert at hc
        split at hc
        · simp at hc
        · split_ifs at hc with hmem
          simp only [Except.ok.injEq] at hc
          subst hc
          obtain ⟨h1, h2⟩ := hs
          constructor
          · simp only [List.map_append, List.map_cons, List.map_nil]
            rw [List.nodup_append]
            refine ⟨h1, List.nodup_singleton _, ?_⟩
            intro a ha hb
            simp only [List.mem_singleton] at hb
            subst hb
            exact hmem ha
          · intro d hd
            simp only [List.mem_append, List.mem_singleton] at hd
            rcases hd with hd | hd
            · exact h2 d hd
            · subst hd
              rfl

theorem StoreInv_updateTodo (s : Server) (urlParam : String) (body : Except DecodeError todo)
    (fault : Option String) (hs : StoreInv s) :
    StoreInv (updateTodo s urlParam body fault).1 := by
  cases hid : IsObjectIdHex (TrimSpace urlParam) with
  | false => simpa [updateTodo, hid] using hs
  | true =>
    obtain ⟨oid, hoid, hlen⟩ := ObjectIdHex_of_IsObjectIdHex _ hid
    rw [updateTodo_of_valid s urlParam body fault oid hid hoid]
    split
    · exact hs
    · split_ifs
      · exact hs
      · split
        · exact hs
        · rename_i c hc
          unfold Update at hc
          split at hc
          · simp at hc
          · split at hc
            · rename_i c1 hc1
              simp only [Except.ok.injEq] at hc
              subst hc
              have hids := replaceOne_ids _ _ _ _ _ hc1
              obtain ⟨h1, h2⟩ := hs
              constructor
              · simp only [hids]; exact h1
              · intro d hd
                have hd1 : d._id ∈ c1.map Document._id := List.mem_map_of_mem _ hd
                rw [hids, List.mem_map] at hd1
                obtain ⟨d0, hd0, e⟩ := hd1
                rw [← e]
                exact h2 d0 hd0
            · simp at hc

theorem StoreInv_deleteTodo (s : Server) (urlParam : String) (fault : Option String)
    (hs : StoreInv s) : StoreInv (deleteTodo s urlParam fault).1 := by
  cases hid : IsObjectIdHex (TrimSpace urlParam) with
  | false => simpa [deleteTodo, hid] using hs
  | true =>
    obtain ⟨oid, hoid, hlen⟩ := ObjectIdHex_of_IsObjectIdHex _ hid
    rw [deleteTodo_of_valid s urlParam fault oid hid hoid]
    split
    · exact hs
    · rename_i c hc
      unfold RemoveId at hc
      split at hc
      · simp at hc
      · split at hc
        · rename_i c1 hc1
          simp only [Except.ok.injEq] at hc
          subst hc
          obtain ⟨hsub, _⟩ := removeOne_sublist _ _ _ hc1
          obtain ⟨h1, h2⟩ := hs
          exact ⟨(hsub.map Document._id).nodup h1, fun d hd => h2 d (hsub.subset hd)⟩
        · simp at hc

theorem StoreInv_fetchTodos (s : Server) (fault : Option String) (hs : StoreInv s) :
    StoreInv (fetchTodos s fault).1 := by
  unfold fetchTodos
  split <;> exact hs

/-- Every request served by the router keeps the invariant of the store, so it
holds in every state reached from an empty collection. -/
theorem StoreInv_todoHandlers (s : Server) (req : Request) (fault : Option String)
    (hs : StoreInv s) : StoreInv (todoHandlers s req fault).1 := by
  cases req with
  | fetch => exact StoreInv_fetchTodos s fault hs
  | create body unix now => exact StoreInv_createTodo s body unix now fault hs
  | update urlParam body => exact StoreInv_updateTodo s urlParam body fault hs
  | delete urlParam => exact StoreInv_deleteTodo s urlParam fault hs

theorem fetchTodos_none (s : Server) :
    fetchTodos s none =
      (s, .response ⟨StatusOK, .M [("data", .list (todoList (s.todos.map unmarshal)))]⟩) := rfl

/-! ## C1: an empty title is rejected and nothing is written -/

/-- C1: when the body decodes to a todo with an empty title, `createTodo`
answers 400 with the message "The title field is required" and leaves the
server state as it was; so does `updateTodo` for every id in the canonical
format. -/
theorem C1_empty_title_rejected (s : Server) (t : todo) (ht : t.Title = "") :
    (∀ unix now fault, createTodo s (.ok t) unix now fault =
      (s, messageResponse StatusBadRequest "The title field is required")) ∧
    (∀ id fault, IsObjectIdHex id = true → updateTodo s id (.ok t) fault =
      (s, messageResponse StatusBadRequest "The title field is required")) := by
  constructor
  · intro unix now fault
    simp [createTodo, ht, messageResponse]
  · intro id fault hid
    have htrim := TrimSpace_of_IsObjectIdHex id hid
    obtain ⟨oid, hoid, _⟩ := ObjectIdHex_of_IsObjectIdHex id hid
    rw [updateTodo_of_valid s id _ fault oid (by rw [htrim]; exact hid) (by rw [htrim]; exact hoid)]
    simp [ht]

theorem C1_empty_title_rejected_witness :
    (({ ID := "", Title := "", Completed := true, CreatedAt := 0 } : todo).Title = "") ∧
    ((∀ unix now fault,
        createTodo sampleServer (.ok { ID := "", Title := "", Completed := true, CreatedAt := 0 })
          unix now fault =
        (sampleServer, messageResponse StatusBadRequest "The title field is required")) ∧
     (∀ id fault, IsObjectIdHex id = true →
        updateTodo sampleServer id (.ok { ID := "", Title := "", Completed := true, CreatedAt := 0 })
          fault =
        (sampleServer, messageResponse StatusBadRequest "The title field is required"))) :=
  ⟨rfl, C1_empty_title_rejected sampleServer _ rfl⟩

/-! ## C2: an id that is not in the canonical format -/

/-- C2, as stated, fails: the handlers trim the id before they check it, so an
id with a leading space, which is not 24 hexadecimal characters, is accepted;
the update and the delete are then done. -/
theorem C2_counterexample :
    IsObjectIdHex " 000000000000000000000000" = false ∧
    updateTodo sampleServer " 000000000000000000000000"
        (.ok { ID := "", Title := "x", Completed := true, CreatedAt := 0 }) none =
      ({ sampleServer with
          todos := [{ _id := zeroId, title := "x", completed := true, createdAt := none }] },
        messageResponse StatusOK "Todo updated successfully") ∧
    deleteTodo sampleServer " 000000000000000000000000" none =
      ({ sampleServer with todos := [] }, messageResponse StatusOK "Todo deleted successfully") := by
  decide

/-- C2, amended: when the id path parameter, once its leading and trailing
white space is trimmed, is not in the canonical format, `updateTodo` (for every
body) and `deleteTodo` answer 400 with the message "The id is invalid" and
leave the server state as it was. -/
theorem C2_invalid_id_rejected (s : Server) (urlParam : String)
    (h : IsObjectIdHex (TrimSpace urlParam) = false) :
    (∀ body fault, updateTodo s urlParam body fault =
      (s, messageResponse StatusBadRequest "The id is invalid")) ∧
    (∀ fault, deleteTodo s urlParam fault =
      (s, messageResponse StatusBadRequest "The id is invalid")) := by
  constructor
  · intro body fault
    simp [updateTodo, h, messageResponse]
  · intro fault
    simp [deleteTodo, h, messageResponse]

theorem C2_invalid_id_rejected_witness :
    IsObjectIdHex (TrimSpace "not-an-id") = false ∧
    ((∀ body fault, updateTodo sampleServer "not-an-id" body fault =
      (sampleServer, messageResponse StatusBadRequest "The id is invalid")) ∧
    (∀ fault, deleteTodo sampleServer "not-an-id" fault =
      (sampleServer, messageResponse StatusBadRequest "The id is invalid"))) :=
  ⟨by decide, C2_invalid_id_rejected sampleServer "not-an-id" (by decide)⟩

/-! ## C10: no handler panics -/

/-- C10: for every id parameter, every outcome of decoding the body and every
state of the store, `createTodo`, `updateTodo` and `deleteTodo` end with a
response, never in a panic; `bson.ObjectIdHex` returns an id for every text
that `bson.IsObjectIdHex` accepts. -/
theorem C10_handlers_never_panic (s : Server) (urlParam : String)
    (body : Except DecodeError todo) (unix : Nat) (now : Time) (fault : Option String) :
    (∃ r, (createTodo s body unix now fault).2 = .response r) ∧
    (∃ r, (updateTodo s urlParam body fault).2 = .response r) ∧
    (∃ r, (deleteTodo s urlParam fault).2 = .response r) ∧
    (∀ id, IsObjectIdHex id = true → ∃ oid, ObjectIdHex id = some oid) := by
  refine ⟨?_, ?_, ?_, ?_⟩
  · unfold createTodo
    split
    · exact ⟨_, rfl⟩
    · split_ifs
      · exact ⟨_, rfl⟩
      · simp only
        split <;> exact ⟨_, rfl⟩
  · cases hid : IsObjectIdHex (TrimSpace urlParam) with
    | false => exact ⟨_, by simp [updateTodo, hid]; rfl⟩
    | true =>
      obtain ⟨oid, hoid, _⟩ := ObjectIdHex_of_IsObjectIdHex _ hid
      rw [updateTodo_of_valid s urlParam body fault oid hid hoid]
      split
      · exact ⟨_, rfl⟩
      · split_ifs
        · exact ⟨_, rfl⟩
        · split <;> exact ⟨_, rfl⟩
  · cases hid : IsObjectIdHex (TrimSpace urlParam) with
    | false => exact ⟨_, by simp [deleteTodo, hid]; rfl⟩
    | true =>
      obtain ⟨oid, hoid, _⟩ := ObjectIdHex_of_IsObjectIdHex _ hid
      rw [deleteTodo_of_valid s urlParam fault oid hid hoid]
      split <;> exact ⟨_, rfl⟩
  · intro id hid
    obtain ⟨oid, hoid, _⟩ := ObjectIdHex_of_IsObjectIdHex id hid
    exact ⟨oid, hoid⟩

/-! ## C4: what an update keeps of a todo -/

/-- C4, evaluated on the code: a todo is created at the instant
1700000000.123456789 s and listed with that creation time (in milliseconds);
after a successful `updateTodo` with its id, `fetchTodos` lists it under the
same id, but its `created_at` is the zero time and no longer the creation
time. -/
theorem C4_update_loses_created_at :
    createTodo (emptyServer 7 (1, 2, 3) 4242)
        (.ok { ID := "", Title := "buy milk", Completed := false, CreatedAt := 0 })
        1700000000 1700000000123456789 none =
      (milkServer (some 1700000000123) "buy milk" false,
       .response ⟨StatusCreated, .M [("message", .str "Todo created successfully"),
         ("todo_id", .str "6553f1000102031092000008")]⟩) ∧
    (fetchTodos (milkServer (some 1700000000123) "buy milk" false) none).2 =
      .response ⟨StatusOK, .M [("data", .list [⟨"6553f1000102031092000008", "buy milk", false,
        1700000000123000000⟩])]⟩ ∧
    updateTodo (milkServer (some 1700000000123) "buy milk" false) "6553f1000102031092000008"
        (.ok { ID := "", Title := "renamed", Completed := true, CreatedAt := 0 }) none =
      (milkServer none "renamed" true, messageResponse StatusOK "Todo updated successfully") ∧
    (fetchTodos (milkServer none "renamed" true) none).2 =
      .response ⟨StatusOK, .M [("data", .list [⟨"6553f1000102031092000008", "renamed", true,
        zeroTime⟩])]⟩ ∧
    zeroTime ≠ 1700000000123000000 := by
  decide

/-! ## C5: a successful update -/

theorem updateTodo_stored (s : Server) (hs : StoreInv s) (d : Document) (hd : d ∈ s.todos)
    (t : todo) (ht : t.Title ≠ "") :
    updateTodo s d._id.Hex (.ok t) none =
      ({ s with todos := s.todos.map fun x =>
          if x._id = d._id then
            { _id := d._id, title := t.Title, completed := t.Completed, createdAt := none }
          else x },
        messageResponse StatusOK "Todo updated successfully") := by
  have hlen := hs.2 d hd
  have hid : IsObjectIdHex (TrimSpace d._id.Hex) = true := by
    rw [TrimSpace_Hex]; exact IsObjectIdHex_Hex _ hlen
  have hoid : ObjectIdHex (TrimSpace d._id.Hex) = some d._id := by
    rw [TrimSpace_Hex]; exact ObjectIdHex_Hex _ hlen
  rw [updateTodo_of_valid s _ _ none d._id hid hoid]
  simp only [ht, if_false, Update,
    replaceOne_eq_map d._id t.Title t.Completed s.todos (List.mem_map_of_mem _ hd) hs.1]

/-- C5: for a stored todo whose id is listed as X and a body that decodes to a
non-empty title and a completed flag, `updateTodo` with X answers 200 with the
message "Todo updated successfully" when the store is reachable; `fetchTodos`
then lists a todo with id X, every listed todo with id X has the new title and
flag, and every other todo is listed as before, at its place. -/
theorem C5_update_sets_title_and_completed (s : Server) (hs : StoreInv s) (d : Document)
    (hd : d ∈ s.todos) (t : todo) (ht : t.Title ≠ "") :
    ∃ s1 data data1,
      updateTodo s d._id.Hex (.ok t) none =
        (s1, messageResponse StatusOK "Todo updated successfully") ∧
      fetchTodos s none = (s, .response ⟨StatusOK, .M [("data", .list data)]⟩) ∧
      fetchTodos s1 none = (s1, .response ⟨StatusOK, .M [("data", .list data1)]⟩) ∧
      (∃ x ∈ data1, x.ID = d._id.Hex) ∧
      List.Forall₂ (fun x y =>
        if x.ID = d._id.Hex then
          y.ID = x.ID ∧ y.Title = t.Title ∧ y.Completed = t.Completed
        else y = x) data data1 := by
  refine ⟨_, _, _, updateTodo_stored s hs d hd t ht, fetchTodos_none s, fetchTodos_none _, ?_, ?_⟩
  · refine ⟨{ ID := d._id.Hex, Title := t.Title, Completed := t.Completed,
              CreatedAt := zeroTime }, ?_, rfl⟩
    simp only [todoList, List.map_map, List.mem_map, Function.comp]
    exact ⟨d, hd, by simp [unmarshal]⟩
  · simp only [todoList, List.map_map]
    rw [List.forall₂_map_left_iff, List.forall₂_map_right_iff, List.forall₂_same]
    intro x _
    simp only [Function.comp]
    by_cases he : x._id = d._id
    · simp [he, unmarshal]
    · have hne : ¬ x._id.Hex = d._id.Hex := fun e => he (Hex_injective _ _ e)
      simp [he, hne, unmarshal]

theorem C5_update_sets_title_and_completed_witness :
    StoreInv sampleServer ∧
    ({ _id := zeroId, title := "buy milk", completed := false,
       createdAt := some 1700000000000 } : Document) ∈ sampleServer.todos ∧
    ({ ID := "", Title := "renamed", Completed := true, CreatedAt := 0 } : todo).Title ≠ "" ∧
    ∃ s1 data data1,
      updateTodo sampleServer zeroId.Hex
          (.ok { ID := "", Title := "renamed", Completed := true, CreatedAt := 0 }) none =
        (s1, messageResponse StatusOK "Todo updated successfully") ∧
      fetchTodos sampleServer none =
        (sampleServer, .response ⟨StatusOK, .M [("data", .list data)]⟩) ∧
      fetchTodos s1 none = (s1, .response ⟨StatusOK, .M [("data", .list data1)]⟩) ∧
      (∃ x ∈ data1, x.ID = zeroId.Hex) ∧
      List.Forall₂ (fun x y =>
        if x.ID = zeroId.Hex then
          y.ID = x.ID ∧ y.Title = "renamed" ∧ y.Completed = true
        else y = x) data data1 :=
  ⟨by decide, by decide, by decide,
   C5_update_sets_title_and_completed sampleServer (by decide)
     { _id := zeroId, title := "buy milk", completed := false, createdAt := some 1700000000000 }
     (by decide) { ID := "", Title := "renamed", Completed := true, CreatedAt := 0 } (by decide)⟩

/-! ## C6: a successful delete -/

theorem deleteTodo_stored (s : Server) (hs : StoreInv s) (d : Document) (hd : d ∈ s.todos) :
    deleteTodo s d._id.Hex none =
      ({ s with todos := s.todos.filter fun x => decide (x._id ≠ d._id) },
        messageResponse StatusOK "Todo deleted successfully") := by
  have hlen := hs.2 d hd
  have hid : IsObjectIdHex (TrimSpace d._id.Hex) = true := by
    rw [TrimSpace_Hex]; exact IsObjectIdHex_Hex _ hlen
  have hoid : ObjectIdHex (TrimSpace d._id.Hex) = some d._id := by
    rw [TrimSpace_Hex]; exact ObjectIdHex_Hex _ hlen
  rw [deleteTodo_of_valid s _ none d._id hid hoid]
  simp only [RemoveId, removeOne_eq_filter d._id s.todos (List.mem_map_of_mem _ hd) hs.1]

/-- C6: for a stored todo whose id is listed as X, `deleteTodo` with X answers
200 with the message "Todo deleted successfully" when the store is reachable;
`fetchTodos` then lists no todo with id X, lists every other todo as before and
in the same order, and its list is shorter by exactly one. -/
theorem C6_delete_removes_todo (s : Server) (hs : StoreInv s) (d : Document)
    (hd : d ∈ s.todos) :
    ∃ s1 data data1,
      deleteTodo s d._id.Hex none =
        (s1, messageResponse StatusOK "Todo deleted successfully") ∧
      fetchTodos s none = (s, .response ⟨StatusOK, .M [("data", .list data)]⟩) ∧
      fetchTodos s1 none = (s1, .response ⟨StatusOK, .M [("data", .list data1)]⟩) ∧
      (∀ x ∈ data1, x.ID ≠ d._id.Hex) ∧
      data1 = data.filter (fun x => decide (x.ID ≠ d._id.Hex)) ∧
      data1.length + 1 = data.length := by
  have hdel := deleteTodo_stored s hs d hd
  refine ⟨_, _, _, hdel, fetchTodos_none s, fetchTodos_none _, ?_, ?_, ?_⟩
  · intro x hx
    simp only [todoList, List.map_map, List.mem_map, Function.comp, List.mem_filter] at hx
    obtain ⟨y, ⟨_, hy⟩, rfl⟩ := hx
    have hne : ¬ y._id = d._id := by simpa using hy
    exact fun e => hne (Hex_injective _ _ e)
  · simp only [todoList, List.map_map, List.filter_map]
    congr 1
    apply List.filter_congr
    intro x _
    simp only [Function.comp, unmarshal]
    by_cases he : x._id = d._id
    · simp [he]
    · have hne : ¬ x._id.Hex = d._id.Hex := fun e => he (Hex_injective _ _ e)
      simp [he, hne]
  · have hrem : removeOne d._id s.todos =
        some (s.todos.filter fun x => decide (x._id ≠ d._id)) :=
      removeOne_eq_filter d._id s.todos (List.mem_map_of_mem _ hd) hs.1
    have := (removeOne_sublist _ _ _ hrem).2
    simpa [todoList] using this

theorem C6_delete_removes_todo_witness :
    StoreInv sampleServer ∧
    ({ _id := zeroId, title := "buy milk", completed := false,
       createdAt := some 1700000000000 } : Document) ∈ sampleServer.todos ∧
    ∃ s1 data data1,
      deleteTodo sampleServer zeroId.Hex none =
        (s1, messageResponse StatusOK "Todo deleted successfully") ∧
      fetchTodos sampleServer none =
        (sampleServer, .response ⟨StatusOK, .M [("data", .list data)]⟩) ∧
      fetchTodos s1 none = (s1, .response ⟨StatusOK, .M [("data", .list data1)]⟩) ∧
      (∀ x ∈ data1, x.ID ≠ zeroId.Hex) ∧
      data1 = data.filter (fun x => decide (x.ID ≠ zeroId.Hex)) ∧
      data1.length + 1 = data.length :=
  ⟨by decide, by decide,
   C6_delete_removes_todo sampleServer (by decide)
     { _id := zeroId, title := "buy milk", completed := false, createdAt := some 1700000000000 }
     (by decide)⟩

/-! ## C9: an update with an id no document has -/

/-- C9, as stated, fails: an update with an id in the canonical format that no
document has is answered with status 102 and the driver's `ErrNotFound`, not
with the 200 of a successful update. -/
theorem C9_counterexample :
    IsObjectIdHex "111111111111111111111111" = true ∧
    (∀ d ∈ sampleServer.todos, ObjectIdHex "111111111111111111111111" ≠ some d._id) ∧
    updateTodo sampleServer "111111111111111111111111"
        (.ok { ID := "", Title := "x", Completed := true, CreatedAt := 0 }) none =
      (sampleServer, .response ⟨StatusProcessing,
        .M [("message", .str "Failed to update todo"), ("error", .err .ErrNotFound)]⟩) ∧
    (updateTodo sampleServer "111111111111111111111111"
        (.ok { ID := "", Title := "x", Completed := true, CreatedAt := 0 }) none).2 ≠
      messageResponse StatusOK "Todo updated successfully" := by
  decide

/-- C9, amended: an update with an id in the canonical format that no document
has and a body with a non-empty title is answered, when the store is reachable,
with status 102 and the body {"message":"Failed to update todo","error":e}
where e is the driver's `ErrNotFound`; the server state is unchanged. -/
theorem C9_update_missing_id (s : Server) (id : String) (t : todo)
    (hid : IsObjectIdHex id = true)
    (hmiss : ∀ d ∈ s.todos, ObjectIdHex id ≠ some d._id) (ht : t.Title ≠ "") :
    updateTodo s id (.ok t) none =
      (s, .response ⟨StatusProcessing,
        .M [("message", .str "Failed to update todo"), ("error", .err .ErrNotFound)]⟩) := by
  have htrim := TrimSpace_of_IsObjectIdHex id hid
  obtain ⟨oid, hoid, _⟩ := ObjectIdHex_of_IsObjectIdHex id hid
  rw [updateTodo_of_valid s id _ none oid (by rw [htrim]; exact hid) (by rw [htrim]; exact hoid)]
  have hnot : oid ∉ s.todos.map Document._id := by
    intro hmem
    rw [List.mem_map] at hmem
    obtain ⟨d, hd, e⟩ := hmem
    exact hmiss d hd (by rw [hoid, e])
  simp only [ht, if_false, Update, replaceOne_none oid t.Title t.Completed s.todos hnot]

theorem C9_update_missing_id_witness :
    IsObjectIdHex "111111111111111111111111" = true ∧
    (∀ d ∈ sampleServer.todos, ObjectIdHex "111111111111111111111111" ≠ some d._id) ∧
    ({ ID := "", Title := "x", Completed := true, CreatedAt := 0 } : todo).Title ≠ "" ∧
    updateTodo sampleServer "111111111111111111111111"
        (.ok { ID := "", Title := "x", Completed := true, CreatedAt := 0 }) none =
      (sampleServer, .response ⟨StatusProcessing,
        .M [("message", .str "Failed to update todo"), ("error", .err .ErrNotFound)]⟩) :=
  ⟨by decide, by decide, by decide,
   C9_update_missing_id sampleServer "111111111111111111111111"
     { ID := "", Title := "x", Completed := true, CreatedAt := 0 }
     (by decide) (by decide) (by decide)⟩

/-! ## C7: the id a create returns -/

theorem hexDigit_mem (n : Fin 16) : hexDigit n.val ∈ hextable.data := by
  revert n; decide

theorem hexEncode_mem_hextable (bs : List Byte) : ∀ c ∈ hexEncode bs, c ∈ hextable.data := by
  induction bs with
  | nil => intro c hc; simp [hexEncode] at hc
  | cons v rest ih =>
    intro c hc
    simp only [hexEncode, List.mem_cons] at hc
    rcases hc with rfl | rfl | hc
    · exact hexDigit_mem ⟨v.val / 16, by omega⟩
    · exact hexDigit_mem ⟨v.val % 16, by omega⟩
    · exact ih c hc

theorem replaceOne_of_mem (oid : ObjectId) (t : String) (c : Bool) :
    ∀ l : List Document, oid ∈ l.map Document._id → ∃ l1, replaceOne oid t c l = some l1
  | [], h => by simp at h
  | d :: ds, h => by
    by_cases he : d._id = oid
    · exact ⟨{ _id := oid, title := t, completed := c, createdAt := none } :: ds,
        by simp only [replaceOne, he, if_true]⟩
    · have hmem : oid ∈ ds.map Document._id := by
        simp only [List.map_cons, List.mem_cons] at h
        rcases h with h | h
        · exact absurd h.symm he
        · exact h
      obtain ⟨l1, hl1⟩ := replaceOne_of_mem oid t c ds hmem
      exact ⟨d :: l1, by simp only [replaceOne, he, if_false, hl1]⟩

/-- What a `createTodo` that answers 201 has done: the body decoded to a todo
with a non-empty title, the new id was not in the collection, and one document
with that id, that title and `completed: false` was appended. -/
theorem createTodo_created (s : Server) (body : Except DecodeError todo) (unix : Nat)
    (now : Time) (fault : Option String)
    (h : (createTodo s body unix now fault).2.status = some StatusCreated) :
    ∃ t, body = .ok t ∧ t.Title ≠ "" ∧
      createTodo s body unix now fault =
        ({ s with
            objectIdCounter := (NewObjectId s unix).2
            todos := s.todos ++ [{ _id := (NewObjectId s unix).1, title := t.Title,
                                   completed := false, createdAt := some (now / 1000000) }] },
          createdResponse (NewObjectId s unix).1.Hex) := by
  unfold createTodo at h ⊢
  split at h
  · simp [Outcome.status, StatusProcessing, StatusCreated] at h
  · rename_i t
    refine ⟨t, rfl, ?_⟩
    split_ifs at h with ht
    · simp [Outcome.status, StatusBadRequest, StatusCreated] at h
    · refine ⟨ht, ?_⟩
      simp only [ht, if_false] at h ⊢
      split at h
      · simp [Outcome.status, StatusProcessing, StatusCreated] at h
      · rename_i c hc
        unfold Insert at hc
        split at hc
        · simp at hc
        · split_ifs at hc
          simp only [Except.ok.injEq] at hc
          subst hc
          rfl

/-- C7: when `createTodo` answers 201, the `todo_id` of its body is 24
characters of `0123456789abcdef`, it passes `bson.IsObjectIdHex`, also behind
the `strings.TrimSpace` of `updateTodo` and `deleteTodo`, and an `updateTodo`
that follows with that id and a non-empty title answers 200 with the message
"Todo updated successfully" when the store is reachable. -/
theorem C7_created_id_is_canonical (s : Server) (body : Except DecodeError todo) (unix : Nat)
    (now : Time) (fault : Option String)
    (h : (createTodo s body unix now fault).2.status = some StatusCreated) :
    ∃ todo_id,
      (createTodo s body unix now fault).2 = createdResponse todo_id ∧
      todo_id.length = 24 ∧
      (∀ c ∈ todo_id.data, c ∈ hextable.data) ∧
      IsObjectIdHex todo_id = true ∧
      IsObjectIdHex (TrimSpace todo_id) = true ∧
      ∀ t : todo, t.Title ≠ "" →
        (updateTodo (createTodo s body unix now fault).1 todo_id (.ok t) none).2 =
          messageResponse StatusOK "Todo updated successfully" := by
  obtain ⟨t0, _, _, hc⟩ := createTodo_created s body unix now fault h
  have hlen := NewObjectId_length s unix
  have hid := IsObjectIdHex_Hex _ hlen
  refine ⟨(NewObjectId s unix).1.Hex, by rw [hc], ?_, ?_, hid, ?_, ?_⟩
  · show (hexEncode _).length = 24
    rw [hexEncode_length, hlen]
  · exact hexEncode_mem_hextable _
  · rw [TrimSpace_Hex]; exact hid
  · intro t ht
    rw [hc]
    have hid2 : IsObjectIdHex (TrimSpace (NewObjectId s unix).1.Hex) = true := by
      rw [TrimSpace_Hex]; exact hid
    have hoid : ObjectIdHex (TrimSpace (NewObjectId s unix).1.Hex) =
        some (NewObjectId s unix).1 := by
      rw [TrimSpace_Hex]; exact ObjectIdHex_Hex _ hlen
    rw [updateTodo_of_valid _ _ _ none _ hid2 hoid]
    obtain ⟨l1, hl1⟩ := replaceOne_of_mem (NewObjectId s unix).1 t.Title t.Completed
      (s.todos ++ [{ _id := (NewObjectId s unix).1, title := t0.Title,
                     completed := false, createdAt := some (now / 1000000) }])
      (by simp)
    simp only [ht, if_false, Update, hl1]

theorem C7_created_id_is_canonical_witness :
    (createTodo sampleServer (.ok { ID := "", Title := "walk", Completed := true, CreatedAt := 0 })
        1700000000 1700000000123456789 none).2.status = some StatusCreated ∧
    ∃ todo_id,
      (createTodo sampleServer
        (.ok { ID := "", Title := "walk", Completed := true, CreatedAt := 0 })
        1700000000 1700000000123456789 none).2 = createdResponse todo_id ∧
      todo_id.length = 24 ∧
      (∀ c ∈ todo_id.data, c ∈ hextable.data) ∧
      IsObjectIdHex todo_id = true ∧
      IsObjectIdHex (TrimSpace todo_id) = true ∧
      ∀ t : todo, t.Title ≠ "" →
        (updateTodo (createTodo sampleServer
            (.ok { ID := "", Title := "walk", Completed := true, CreatedAt := 0 })
            1700000000 1700000000123456789 none).1 todo_id (.ok t) none).2 =
          messageResponse StatusOK "Todo updated successfully" :=
  ⟨by decide, C7_created_id_is_canonical sampleServer _ 1700000000 1700000000123456789 none
    (by decide)⟩

/-! ## C3: creates, then a list -/

/-- What a sequence of `createTodo` that all answer 201 has done: one document
was appended for each request, in order, with the title of the request and
`completed: false`, and each response carries the id of its document. -/
theorem createAll_created : ∀ (reqs : List CreateRequest) (s : Server),
    (∀ o ∈ (createAll s reqs).2, o.status = some StatusCreated) →
    ∃ docs : List Document,
      (createAll s reqs).1.todos = s.todos ++ docs ∧
      docs.map (fun d => some d.title) = reqs.map CreateRequest.title ∧
      (∀ d ∈ docs, d.completed = false) ∧
      (createAll s reqs).2 = docs.map fun d => createdResponse d._id.Hex
  | [], s, _ => ⟨[], by simp [createAll]⟩
  | r :: rs, s, h => by
    simp only [createAll, List.mem_cons, forall_eq_or_imp] at h
    obtain ⟨t, hbody, _, hc⟩ := createTodo_created s r.body r.unix r.now r.fault h.1
    obtain ⟨docs, h1, h2, h3, h4⟩ := createAll_created rs _ h.2
    refine ⟨{ _id := (NewObjectId s r.unix).1, title := t.Title, completed := false,
              createdAt := some (r.now / 1000000) } :: docs, ?_, ?_, ?_, ?_⟩
    · simp only [createAll, h1]
      rw [hc]
      simp
    · simp only [List.map_cons, h2, CreateRequest.title, hbody]
    · intro d hd
      simp only [List.mem_cons] at hd
      rcases hd with rfl | hd
      · rfl
      · exact h3 d hd
    · simp only [createAll, h4, List.map_cons]
      rw [hc]

/-- C3: on a server started on an empty collection, after a sequence of
requests to `createTodo` whose bodies decode to the titles T1..TN (whatever
else they carry) and that all answer 201, `fetchTodos` answers 200, when the
store is reachable, with a data array of exactly N todos, whose titles are
T1..TN in order, all with `completed` false, and whose ids are the `todo_id`
of the N responses, one for each create. -/
theorem C3_create_then_list (counter : Nat) (machineId : Byte × Byte × Byte) (processId : Nat)
    (reqs : List CreateRequest) (titles : List String)
    (htitles : reqs.map CreateRequest.title = titles.map some)
    (hok : ∀ o ∈ (createAll (emptyServer counter machineId processId) reqs).2,
      o.status = some StatusCreated) :
    ∃ data,
      (fetchTodos (createAll (emptyServer counter machineId processId) reqs).1 none).2 =
        .response ⟨StatusOK, .M [("data", .list data)]⟩ ∧
      data.length = reqs.length ∧
      data.map todo.Title = titles ∧
      (∀ x ∈ data, x.Completed = false) ∧
      (createAll (emptyServer counter machineId processId) reqs).2 =
        data.map fun x => createdResponse x.ID := by
  obtain ⟨docs, h1, h2, h3, h4⟩ := createAll_created reqs _ hok
  have h1a : (createAll (emptyServer counter machineId processId) reqs).1.todos = docs := by
    rw [h1]; simp [emptyServer]
  refine ⟨todoList (docs.map unmarshal), ?_, ?_, ?_, ?_, ?_⟩
  · rw [fetchTodos_none, h1a]
  · have := congrArg List.length h2
    simpa [todoList] using this
  · rw [htitles] at h2
    have h5 : (docs.map fun d => d.title).map some = titles.map some := by
      rw [List.map_map]; exact h2
    have h6 := List.map_injective_iff.mpr (Option.some_injective String) h5
    rw [← h6]
    simp [todoList, unmarshal]
  · intro x hx
    simp only [todoList, List.map_map, List.mem_map, Function.comp] at hx
    obtain ⟨d, hd, rfl⟩ := hx
    exact h3 d hd
  · rw [h4]
    simp [todoList, unmarshal]

theorem C3_create_then_list_witness :
    ([⟨.ok { ID := "", Title := "buy milk", Completed := true, CreatedAt := 0 },
        1700000000, 1700000000123456789, none⟩,
      ⟨.ok { ID := "abc", Title := "walk", Completed := false, CreatedAt := 5 },
        1700000001, 1700000001000000000, none⟩] : List CreateRequest).map CreateRequest.title =
      ["buy milk", "walk"].map some ∧
    (∀ o ∈ (createAll (emptyServer 7 (1, 2, 3) 4242)
        [⟨.ok { ID := "", Title := "buy milk", Completed := true, CreatedAt := 0 },
          1700000000, 1700000000123456789, none⟩,
         ⟨.ok { ID := "abc", Title := "walk", Completed := false, CreatedAt := 5 },
          1700000001, 1700000001000000000, none⟩]).2, o.status = some StatusCreated) ∧
    ∃ data,
      (fetchTodos (createAll (emptyServer 7 (1, 2, 3) 4242)
        [⟨.ok { ID := "", Title := "buy milk", Completed := true, CreatedAt := 0 },
          1700000000, 1700000000123456789, none⟩,
         ⟨.ok { ID := "abc", Title := "walk", Completed := false, CreatedAt := 5 },
          1700000001, 1700000001000000000, none⟩]).1 none).2 =
        .response ⟨StatusOK, .M [("data", .list data)]⟩ ∧
      data.length = 2 ∧
      data.map todo.Title = ["buy milk", "walk"] ∧
      (∀ x ∈ data, x.Completed = false) ∧
      (createAll (emptyServer 7 (1, 2, 3) 4242)
        [⟨.ok { ID := "", Title := "buy milk", Completed := true, CreatedAt := 0 },
          1700000000, 1700000000123456789, none⟩,
         ⟨.ok { ID := "abc", Title := "walk", Completed := false, CreatedAt := 5 },
          1700000001, 1700000001000000000, none⟩]).2 =
        data.map fun x => createdResponse x.ID :=
  ⟨by decide, by decide,
   C3_create_then_list 7 (1, 2, 3) 4242 _ ["buy milk", "walk"] (by decide) (by decide)⟩

/-! ## C8: the body of a failure response -/

theorem Insert_error (c : List Document) (doc : Document) (fault : Option String)
    (e : StoreError) (h : Insert c doc fault = .error e) :
    ∀ detail, fault = some detail → e = .unreachable detail := by
  intro detail hf
  subst hf
  simp only [Insert, Except.error.injEq] at h
  exact h.symm

theorem Update_error (c : List Document) (oid : ObjectId) (t : String) (b : Bool)
    (fault : Option String) (e : StoreError) (h : Update c oid t b fault = .error e) :
    ∀ detail, fault = some detail → e = .unreachable detail := by
  intro detail hf
  subst hf
  simp only [Update, Except.error.injEq] at h
  exact h.symm

theorem RemoveId_error (c : List Document) (oid : ObjectId) (fault : Option String)
    (e : StoreError) (h : RemoveId c oid fault = .error e) :
    ∀ detail, fault = some detail → e = .unreachable detail := by
  intro detail hf
  subst hf
  simp only [RemoveId, Except.error.injEq] at h
  exact h.symm

theorem FindAll_error (c : List Document) (fault : Option String)
    (e : StoreError) (h : FindAll c fault = .error e) :
    ∀ detail, fault = some detail → e = .unreachable detail := by
  intro detail hf
  subst hf
  simp only [FindAll, Except.error.injEq] at h
  exact h.symm

/-- C8, as stated, fails: when the body cannot be decoded (here an empty body,
for which `Decode` returns `io.EOF`), `createTodo` passes the error itself to
the renderer, and the JSON object of that error has no `message` field. -/
theorem C8_counterexample :
    (createTodo sampleServer (.error EOF) 1700000000 1700000000123456789 none).2 =
      .response ⟨StatusProcessing, .err EOF⟩ ∧
    (updateTodo sampleServer "000000000000000000000000" (.error EOF) none).2 =
      .response ⟨StatusProcessing, .err EOF⟩ ∧
    "message" ∉ (Payload.err EOF).keys ∧
    (Payload.err EOF).field "message" = none := by
  decide

/-- Every response that does not carry the status of success has one of the
shapes of a failure: the decoder's error itself with status 102, or a
`renderer.M` with a `message`, with status 400 or with status 102 and the
driver's error under `error`. -/
theorem todoHandlers_failure_shape (s : Server) (req : Request) (fault : Option String) (r : Response)
    (h : (todoHandlers s req fault).2 = .response r) (hfail : r.status ≠ req.successStatus) :
    (∃ e, req.body = some (.error e) ∧ r = ⟨StatusProcessing, .err e⟩) ∨
    (∃ text, r.body.field "message" = some (.str text) ∧
      (r.status = StatusBadRequest ∨
       (r.status = StatusProcessing ∧
        ∃ e, r.body.field "error" = some (.err e) ∧
          ∀ detail, fault = some detail → e = .unreachable detail))) := by
  cases req with
  | fetch =>
    simp only [todoHandlers, fetchTodos] at h
    split at h
    · rename_i err herr
      simp only [Outcome.response.injEq] at h
      subst h
      exact Or.inr ⟨_, rfl, Or.inr ⟨rfl, err, rfl, FindAll_error _ _ _ herr⟩⟩
    · simp only [Outcome.response.injEq] at h
      subst h
      exact absurd rfl hfail
  | create body unix now =>
    simp only [todoHandlers, createTodo] at h
    split at h
    · rename_i err
      simp only [Outcome.response.injEq] at h
      subst h
      exact Or.inl ⟨err, rfl, rfl⟩
    · split_ifs at h
      · simp only [Outcome.response.injEq] at h
        subst h
        exact Or.inr ⟨_, rfl, Or.inl rfl⟩
      · split at h
        · rename_i err herr
          simp only [Outcome.response.injEq] at h
          subst h
          exact Or.inr ⟨_, rfl, Or.inr ⟨rfl, err, rfl, Insert_error _ _ _ _ herr⟩⟩
        · simp only [Outcome.response.injEq] at h
          subst h
          exact absurd rfl hfail
  | update urlParam body =>
    simp only [todoHandlers] at h
    cases hid : IsObjectIdHex (TrimSpace urlParam) with
    | false =>
      simp only [updateTodo, hid, Bool.not_false, if_true, Outcome.response.injEq] at h
      subst h
      exact Or.inr ⟨_, rfl, Or.inl rfl⟩
    | true =>
      obtain ⟨oid, hoid, _⟩ := ObjectIdHex_of_IsObjectIdHex _ hid
      rw [updateTodo_of_valid s urlParam body fault oid hid hoid] at h
      split at h
      · rename_i err
        simp only [Outcome.response.injEq] at h
        subst h
        exact Or.inl ⟨err, rfl, rfl⟩
      · split_ifs at h
        · simp only [messageResponse, Outcome.response.injEq] at h
          subst h
          exact Or.inr ⟨_, rfl, Or.inl rfl⟩
        · split at h
          · rename_i err herr
            simp only [Outcome.response.injEq] at h
            subst h
            exact Or.inr ⟨_, rfl, Or.inr ⟨rfl, err, rfl, Update_error _ _ _ _ _ _ herr⟩⟩
          · simp only [messageResponse, Outcome.response.injEq] at h
            subst h
            exact absurd rfl hfail
  | delete urlParam =>
    simp only [todoHandlers] at h
    cases hid : IsObjectIdHex (TrimSpace urlParam) with
    | false =>
      simp only [deleteTodo, hid, Bool.not_false, if_true, Outcome.response.injEq] at h
      subst h
      exact Or.inr ⟨_, rfl, Or.inl rfl⟩
    | true =>
      obtain ⟨oid, hoid, _⟩ := ObjectIdHex_of_IsObjectIdHex _ hid
      rw [deleteTodo_of_valid s urlParam fault oid hid hoid] at h
      split at h
      · rename_i err herr
        simp only [Outcome.response.injEq] at h
        subst h
        exact Or.inr ⟨_, rfl, Or.inr ⟨rfl, err, rfl, RemoveId_error _ _ _ _ herr⟩⟩
      · simp only [messageResponse, Outcome.response.injEq] at h
        subst h
        exact absurd rfl hfail

/-- C8, amended: on each failure path of `createTodo`, `updateTodo`,
`fetchTodos` and `deleteTodo` the response is fixed by the cause.  An invalid
id and an empty title are answered with status 400 and a `renderer.M` that has
the `message` field only.  An error of the store (of `Insert`, `Update`,
`Find(..).All`, `RemoveId`) is answered with status 102 and a `renderer.M` with
a `message` field and an `error` field that carries that very error.  A body
parse error is answered with status 102 and the decoder's error itself as the
body, with no `message` field added.  There is no other failure response. -/
theorem C8_failure_body (s : Server) (urlParam : String) (body : Except DecodeError todo)
    (unix : Nat) (now : Time) (fault : Option String) :
    (IsObjectIdHex (TrimSpace urlParam) = false →
      (updateTodo s urlParam body fault).2 =
        .response ⟨StatusBadRequest, .M [("message", .str "The id is invalid")]⟩ ∧
      (deleteTodo s urlParam fault).2 =
        .response ⟨StatusBadRequest, .M [("message", .str "The id is invalid")]⟩) ∧
    (∀ e, body = .error e →
      (createTodo s body unix now fault).2 = .response ⟨StatusProcessing, .err e⟩ ∧
      (IsObjectIdHex (TrimSpace urlParam) = true →
        (updateTodo s urlParam body fault).2 = .response ⟨StatusProcessing, .err e⟩)) ∧
    (∀ t, body = .ok t → t.Title = "" →
      (createTodo s body unix now fault).2 =
        .response ⟨StatusBadRequest, .M [("message", .str "The title field is required")]⟩ ∧
      (IsObjectIdHex (TrimSpace urlParam) = true →
        (updateTodo s urlParam body fault).2 =
          .response ⟨StatusBadRequest,
            .M [("message", .str "The title field is required")]⟩)) ∧
    (∀ t e, body = .ok t → t.Title ≠ "" →
      Insert s.todos (marshal ⟨(NewObjectId s unix).1, t.Title, false, now⟩) fault = .error e →
      (createTodo s body unix now fault).2 =
        .response ⟨StatusProcessing,
          .M [("message", .str "Failed to save todo"), ("error", .err e)]⟩) ∧
    (∀ t oid e, body = .ok t → t.Title ≠ "" →
      IsObjectIdHex (TrimSpace urlParam) = true → ObjectIdHex (TrimSpace urlParam) = some oid →
      Update s.todos oid t.Title t.Completed fault = .error e →
      (updateTodo s urlParam body fault).2 =
        .response ⟨StatusProcessing,
          .M [("message", .str "Failed to update todo"), ("error", .err e)]⟩) ∧
    (∀ e, FindAll s.todos fault = .error e →
      (fetchTodos s fault).2 =
        .response ⟨StatusProcessing,
          .M [("message", .str "Failed to fetch todo"), ("error", .err e)]⟩) ∧
    (∀ oid e,
      IsObjectIdHex (TrimSpace urlParam) = true → ObjectIdHex (TrimSpace urlParam) = some oid →
      RemoveId s.todos oid fault = .error e →
      (deleteTodo s urlParam fault).2 =
        .response ⟨StatusProcessing,
          .M [("message", .str "Failed to delete todo"), ("error", .err e)]⟩) ∧
    (∀ text e, ∃ r, failureResponse text e = .response r ∧
      r.body.field "message" = some (.str text) ∧ r.body.field "error" = some (.err e)) ∧
    (∀ (req : Request) (r : Response), (todoHandlers s req fault).2 = .response r →
      r.status ≠ req.successStatus →
      (∃ e, req.body = some (.error e) ∧ r = ⟨StatusProcessing, .err e⟩) ∨
      (∃ text, r.body.field "message" = some (.str text) ∧
        (r.status = StatusBadRequest ∨
         (r.status = StatusProcessing ∧
          ∃ e, r.body.field "error" = some (.err e) ∧
            ∀ detail, fault = some detail → e = .unreachable detail)))) := by
  refine ⟨?_, ?_, ?_, ?_, ?_, ?_, ?_, ?_, ?_⟩
  · intro hid
    exact ⟨by simp [updateTodo, hid], by simp [deleteTodo, hid]⟩
  · intro e he
    subst he
    refine ⟨rfl, ?_⟩
    intro hid
    obtain ⟨oid, hoid, _⟩ := ObjectIdHex_of_IsObjectIdHex _ hid
    rw [updateTodo_of_valid s urlParam _ fault oid hid hoid]
  · intro t hb ht
    subst hb
    refine ⟨by simp [createTodo, ht], ?_⟩
    intro hid
    obtain ⟨oid, hoid, _⟩ := ObjectIdHex_of_IsObjectIdHex _ hid
    rw [updateTodo_of_valid s urlParam _ fault oid hid hoid]
    simp [ht, messageResponse]
  · intro t e hb ht hins
    subst hb
    simp only [createTodo, ht, if_false, hins]
  · intro t oid e hb ht hid hoid hupd
    subst hb
    rw [updateTodo_of_valid s urlParam _ fault oid hid hoid]
    simp only [ht, if_false, hupd]
  · intro e hfind
    simp only [fetchTodos, hfind]
  · intro oid e hid hoid hrem
    rw [deleteTodo_of_valid s urlParam fault oid hid hoid]
    simp only [hrem]
  · intro text e
    exact ⟨_, rfl, rfl, rfl⟩
  · intro req r h hfail
    exact todoHandlers_failure_shape s req fault r h hfail

theorem C8_failure_body_witness :
    (createTodo sampleServer (.error EOF) 1700000000 1700000000123456789
        (some "no reachable servers")).2 =
      .response ⟨StatusProcessing, .err EOF⟩ ∧
    (updateTodo sampleServer "000000000000000000000000" (.error EOF)
        (some "no reachable servers")).2 =
      .response ⟨StatusProcessing, .err EOF⟩ ∧
    (fetchTodos sampleServer (some "no reachable servers")).2 =
      .response ⟨StatusProcessing, .M [("message", .str "Failed to fetch todo"),
        ("error", .err (.unreachable "no reachable servers"))]⟩ ∧
    (deleteTodo sampleServer "000000000000000000000000" (some "no reachable servers")).2 =
      .response ⟨StatusProcessing, .M [("message", .str "Failed to delete todo"),
        ("error", .err (.unreachable "no reachable servers"))]⟩ :=
  ⟨((C8_failure_body sampleServer "000000000000000000000000" (.error EOF) 1700000000
      1700000000123456789 (some "no reachable servers")).2.1 EOF rfl).1,
   ((C8_failure_body sampleServer "000000000000000000000000" (.error EOF) 1700000000
      1700000000123456789 (some "no reachable servers")).2.1 EOF rfl).2 (by decide),
   (C8_failure_body sampleServer "000000000000000000000000" (.error EOF) 1700000000
      1700000000123456789 (some "no reachable servers")).2.2.2.2.2.1
      (.unreachable "no reachable servers") rfl,
   (C8_failure_body sampleServer "000000000000000000000000" (.error EOF) 1700000000
      1700000000123456789 (some "no reachable servers")).2.2.2.2.2.2.1 zeroId
      (.unreachable "no reachable servers") (by decide) (by decide) rfl⟩

end GoTodo
